import Mathlib

/-!
Verification of the pane-monitoring engine of `coder-tools`.

The development shallowly embeds the Rust sources:
* `src/app.rs` — the state tracker (`App::refresh`), visibility filter and
  sorter (`App::visible_panes`), selection handling, aggregated statistics.
* `src/tmux.rs` — the pane-observation source (`list_panes`), modelled over an
  explicit subprocess outcome.
* `src/cost.rs` — the usage/cost resolver, modelled over an explicit
  filesystem and an uninterpreted JSON parsing function standing for
  `serde_json::from_str`.
* `src/providers/claude.rs` — the `encode_path` path encoder.

Rust `Instant` values are modelled as natural numbers on a monotonic clock;
`elapsed` is truncated subtraction, which matches the non-negativity guarantee
of the monotonic clock.  `u64`/`u32` counters are modelled as `Nat` (the
accumulated-seconds and token counters cannot realistically overflow and the
claims under study do not concern wrap-around); the `u32` parser used by
`list_panes` keeps its range check.  `f64` appears only in
`AggregatedStats::efficiency_percent`, which is modelled over `ℚ`: the zero
test guarding the division is an exact integer test in the source, so the
branch structure is preserved exactly.
-/

/-- The `Status` from the current revision of the detector, as consumed by
`src/app.rs` (`Working`, `WaitingForInput`, `PermissionRequired`,
`NotDetected`). -/
inductive Status where
  | WaitingForInput
  | PermissionRequired
  | Working
  | NotDetected
deriving DecidableEq, Repr

/-- The `DetectionResult`, reduced to the fields the engine in `src/app.rs`
reads: the detected `status` and the optional `task` text. -/
structure DetectionResult where
  status : Status
  task : Option String
deriving DecidableEq, Repr

/-- Modelled from the spec: `DetectionResult::from_pane` is called by
`App::refresh` (src/app.rs line 113) but the revision of
`src/detector.rs` in the tree predates it.  Per the spec (§3) the status
token comes from a closed vocabulary — the hooks publish `working`,
`waiting` and `permission` (src/hooks.rs) — with an unrecognized or absent
token resolving to `NotDetected`, and a missing provider tag likewise
resolving to `NotDetected` ("Requires @agent_provider to be set to avoid
false positives", src/app.rs line 112). -/
def DetectionResult.from_pane (provider status task : Option String) :
    DetectionResult :=
  match provider, status with
  | some _, some s =>
      if s = "working" then ⟨Status.Working, task⟩
      else if s = "waiting" then ⟨Status.WaitingForInput, task⟩
      else if s = "permission" then ⟨Status.PermissionRequired, task⟩
      else ⟨Status.NotDetected, task⟩
  | _, _ => ⟨Status.NotDetected, task⟩

/-- A pane observation (`Pane` in src/tmux.rs). -/
structure Pane where
  id : String
  session_name : String
  window_index : Nat
  pane_index : Nat
  current_path : String
  agent_provider : Option String
  agent_status : Option String
  agent_task : Option String
deriving DecidableEq, Repr

/-- The `Pane::display_name` (src/tmux.rs): `"{session}:{window}.{pane}"`. -/
def Pane.display_name (p : Pane) : String :=
  p.session_name ++ ":" ++ toString p.window_index ++ "." ++ toString p.pane_index

/-- The `PaneStats` (src/app.rs): accumulated per-status seconds and the
state-change counter. -/
structure PaneStats where
  total_working_secs : Nat
  total_waiting_secs : Nat
  total_permission_secs : Nat
  state_changes : Nat
deriving DecidableEq, Repr

/-- The `PaneStats::default()`: all counters zero. -/
def PaneStats.default : PaneStats :=
  ⟨0, 0, 0, 0⟩

/-- The `TokenUsage` (src/cost.rs). -/
structure TokenUsage where
  input_tokens : Nat
  output_tokens : Nat
  cache_read_tokens : Nat
  cache_write_tokens : Nat
deriving DecidableEq, Repr

/-- The `TokenUsage::default()`: all counts zero. -/
def TokenUsage.default : TokenUsage :=
  ⟨0, 0, 0, 0⟩

/-- The `PaneState` (src/app.rs); `Instant`s are monotonic tick values. -/
structure PaneState where
  pane : Pane
  status : DetectionResult
  last_change : Nat
  status_changed_at : Nat
  previous_status : Option Status
  stats : PaneStats
  tokens : Option TokenUsage
deriving DecidableEq, Repr

/-- The `StateChangeNotification` (src/app.rs). -/
structure StateChangeNotification where
  pane_name : String
  folder_name : String
  session_name : String
  window_index : Nat
  pane_index : Nat
  is_permission : Bool
deriving DecidableEq, Repr

/-- The `App` (src/app.rs).  The `HashMap<String, PaneState>` keyed by pane id is
modelled as a list of records (the key of a record is `paneState.pane.id`);
`HashSet<String>` becomes a list of session names. -/
structure App where
  pane_states : List PaneState
  selected_index : Nat
  show_all_panes : Bool
  compact_mode : Bool
  group_by_session : Bool
  show_stats : Bool
  collapsed_sessions : List String
  status_filter : Option Status
  self_pane_id : Option String
deriving DecidableEq, Repr

/-- The status ordering of `App::visible_panes` (src/app.rs lines 205-210). -/
def status_order : Status → Nat
  | Status.PermissionRequired => 0
  | Status.Working => 1
  | Status.WaitingForInput => 2
  | Status.NotDetected => 3

/-- The comparator passed to `sort_by` in `App::visible_panes`
(src/app.rs lines 204-217): status rank, then session name, then window
index, then pane index. -/
def paneCmp (a b : PaneState) : Ordering :=
  ((compare (status_order a.status.status) (status_order b.status.status)).then
    ((compare a.pane.session_name b.pane.session_name).then
      ((compare a.pane.window_index b.pane.window_index).then
        (compare a.pane.pane_index b.pane.pane_index))))

/-- The `App::visible_panes` (src/app.rs lines 192-220): drop `NotDetected`
records unless `show_all_panes`, keep only the filtered status when a
status filter is set, then stable-sort by `paneCmp`.  Rust's stable
`sort_by` with comparator `c` is `mergeSort` with `le a b = (c a b).isLE`. -/
def App.visible_panes (app : App) : List PaneState :=
  let panes := (app.pane_states.filter
      (fun p => app.show_all_panes || !(p.status.status = Status.NotDetected))).filter
      (fun p =>
        match app.status_filter with
        | some filter => p.status.status = filter
        | none => true)
  panes.mergeSort (fun a b => (paneCmp a b).isLE)

/-- Split a character list on a separator character; pieces between
consecutive separators are kept, so the result is always nonempty.  This
models Rust's single-character `split` (and Lean's `String.splitOn`, whose
positional implementation the kernel cannot evaluate). -/
def splitOnChar (sep : Char) : List Char → List (List Char)
  | [] => [[]]
  | c :: rest =>
      match splitOnChar sep rest with
      | [] => [[]]
      | l :: ls => if c = sep then [] :: l :: ls else (c :: l) :: ls

/-- Rust `str::trim`, modelled on the ASCII whitespace set: drop leading
and trailing whitespace characters. -/
def rustTrim (s : String) : String :=
  String.mk
    (((s.data.dropWhile Char.isWhitespace).reverse.dropWhile
      Char.isWhitespace).reverse)

/-- The folder name extracted for notifications
(src/app.rs lines 120-125): the component after the last `/`
(`rsplit('/').next()`), or the whole path when there is no `/`. -/
def folder_name_of (path : String) : String :=
  ((splitOnChar '/' path.data).map String.mk).getLastD path

/-- One fresh record, as inserted by the new-id branch of `App::refresh`
(src/app.rs lines 163-177). -/
def freshState (pane : Pane) (status : DetectionResult) (now : Nat) : PaneState :=
  { pane := pane, status := status, last_change := now, status_changed_at := now,
    previous_status := none, stats := PaneStats.default, tokens := none }

/-- The in-place update of an existing record by `App::refresh`
(src/app.rs lines 127-162): on a status change, accumulate the elapsed
time into the bucket of the old status (nothing for `NotDetected`), bump
the state-change counter, record the previous status and reset
`status_changed_at`; in both cases refresh `pane` and `status`. -/
def updateExisting (existing : PaneState) (pane : Pane)
    (status : DetectionResult) (now : Nat) : PaneState :=
  if existing.status.status ≠ status.status then
    let elapsed_secs := now - existing.status_changed_at
    let stats :=
      match existing.status.status with
      | Status.Working =>
          { existing.stats with
            total_working_secs := existing.stats.total_working_secs + elapsed_secs }
      | Status.WaitingForInput =>
          { existing.stats with
            total_waiting_secs := existing.stats.total_waiting_secs + elapsed_secs }
      | Status.PermissionRequired =>
          { existing.stats with
            total_permission_secs := existing.stats.total_permission_secs + elapsed_secs }
      | Status.NotDetected => existing.stats
    { existing with
      last_change := now,
      stats := { stats with state_changes := stats.state_changes + 1 },
      previous_status := some existing.status.status,
      status_changed_at := now,
      pane := pane,
      status := status }
  else
    { existing with pane := pane, status := status }

/-- The notification pushed by `App::refresh` on a
`Working → {WaitingForInput, PermissionRequired}` change
(src/app.rs lines 144-157). -/
def transitionNotificationOf (existing : PaneState) (pane : Pane)
    (status : DetectionResult) : Option StateChangeNotification :=
  if existing.status.status = Status.Working ∧
      (status.status = Status.WaitingForInput ∨
        status.status = Status.PermissionRequired) then
    some { pane_name := pane.display_name,
           folder_name := folder_name_of pane.current_path,
           session_name := pane.session_name,
           window_index := pane.window_index,
           pane_index := pane.pane_index,
           is_permission := status.status = Status.PermissionRequired }
  else
    none

/-- The loop state of `App::refresh` (src/app.rs lines 99-101): the evolving
record table, the ids seen so far, and the notifications collected so far. -/
structure RefreshAcc where
  pane_states : List PaneState
  seen_ids : List String
  notifications : List StateChangeNotification

/-- One iteration of the per-pane loop of `App::refresh`
(src/app.rs lines 103-178). -/
def processPane (self_pane_id : Option String) (now : Nat)
    (acc : RefreshAcc) (pane : Pane) : RefreshAcc :=
  if some pane.id = self_pane_id then acc
  else
    let seen_ids := acc.seen_ids ++ [pane.id]
    let status := DetectionResult.from_pane pane.agent_provider pane.agent_status
      pane.agent_task
    match acc.pane_states.find? (fun s => s.pane.id = pane.id) with
    | some existing =>
        let notifications :=
          if existing.status.status ≠ status.status then
            acc.notifications ++ (transitionNotificationOf existing pane status).toList
          else acc.notifications
        { pane_states := acc.pane_states.map
            (fun s => if s.pane.id = pane.id then updateExisting s pane status now else s),
          seen_ids := seen_ids,
          notifications := notifications }
    | none =>
        { pane_states := acc.pane_states ++ [freshState pane status now],
          seen_ids := seen_ids,
          notifications := acc.notifications }

/-- The body of `App::refresh` once a batch has been obtained
(src/app.rs lines 99-189): process every observation, retain only the
records whose id was seen, and clamp the selection index against the
visible count. -/
def App.merge (app : App) (panes : List Pane) (now : Nat) :
    App × List StateChangeNotification :=
  let acc := panes.foldl (processPane app.self_pane_id now)
    ⟨app.pane_states, [], []⟩
  let pane_states := acc.pane_states.filter
    (fun s => acc.seen_ids.contains s.pane.id)
  let app' := { app with pane_states := pane_states }
  let visible_count := (App.visible_panes app').length
  let app'' :=
    if 0 < visible_count ∧ visible_count ≤ app'.selected_index then
      { app' with selected_index := visible_count - 1 }
    else app'
  (app'', acc.notifications)

/-- The `App::toggle_show_all` (src/app.rs lines 240-244). -/
def App.toggle_show_all (app : App) : App :=
  { app with show_all_panes := !app.show_all_panes, selected_index := 0 }

/-- The `App::toggle_filter_working` (src/app.rs lines 250-256). -/
def App.toggle_filter_working (app : App) : App :=
  { app with
    status_filter :=
      match app.status_filter with
      | some Status.Working => none
      | _ => some Status.Working,
    selected_index := 0 }

/-- The `App::toggle_filter_waiting` (src/app.rs lines 258-264). -/
def App.toggle_filter_waiting (app : App) : App :=
  { app with
    status_filter :=
      match app.status_filter with
      | some Status.WaitingForInput => none
      | _ => some Status.WaitingForInput,
    selected_index := 0 }

/-- The `AggregatedStats` (src/app.rs lines 352-359). -/
structure AggregatedStats where
  pane_count : Nat
  total_working_secs : Nat
  total_waiting_secs : Nat
  total_permission_secs : Nat
  total_state_changes : Nat
deriving DecidableEq, Repr

/-- The `AggregatedStats::efficiency_percent` (src/app.rs lines 361-370),
over `ℚ`: the `total == 0` guard is an exact integer test in the source
and is preserved; the division only happens in the other branch. -/
def AggregatedStats.efficiency_percent (s : AggregatedStats) : ℚ :=
  let total := s.total_working_secs + s.total_waiting_secs + s.total_permission_secs
  if total = 0 then 0
  else ((s.total_working_secs : ℚ) / (total : ℚ)) * 100

/-- The outcome of one `std::process::Command::output()` call: `none` for a
spawn failure, otherwise the exit flag and the captured streams. -/
structure CmdOutput where
  success : Bool
  stdout : String
  stderr : String

/-- Strip one trailing carriage return. -/
def stripCR (l : List Char) : List Char :=
  match l.getLast? with
  | some c => if c = '\r' then l.dropLast else l
  | none => l

/-- Rust `str::lines()`: split on `\n`, drop the trailing empty piece
produced by a terminating newline, and strip one trailing `\r` from each
line. -/
def rustLines (s : String) : List String :=
  let parts := splitOnChar '\n' s.data
  let parts :=
    match parts.getLast? with
    | some [] => parts.dropLast
    | _ => parts
  parts.map (fun l => String.mk (stripCR l))

/-- Whether `pat` occurs as a contiguous run of `l`. -/
def containsSubAux (pat : List Char) : List Char → Bool
  | [] => pat.isPrefixOf []
  | c :: rest => pat.isPrefixOf (c :: rest) || containsSubAux pat rest

/-- Rust `str::contains(pattern)`: substring containment. -/
def containsSub (s pat : String) : Bool :=
  containsSubAux pat.data s.data

/-- Rust `str::parse::<u32>().unwrap_or(0)` (src/tmux.rs lines 103-104):
digits with an optional leading `+`, rejected (hence 0) when out of the
`u32` range. -/
def parse_u32 (s : String) : Nat :=
  let t := if s.startsWith "+" then s.drop 1 else s
  match t.toNat? with
  | some n => if n < 2 ^ 32 then n else 0
  | none => 0

/-- The per-line parsing of `list_panes` (src/tmux.rs lines 83-113):
split on tabs, require at least 5 fields, treat the trimmed optional
fields as absent when empty. -/
def parsePaneLine (line : String) : Option Pane :=
  let parts := (splitOnChar '\t' line.data).map String.mk
  if 5 ≤ parts.length then
    let optField := fun (i : Nat) =>
      match parts.get? i with
      | some s => if rustTrim s = "" then none else some (rustTrim s)
      | none => none
    some { id := parts.getD 0 "",
           session_name := parts.getD 1 "",
           window_index := parse_u32 (parts.getD 2 ""),
           pane_index := parse_u32 (parts.getD 3 ""),
           current_path := parts.getD 4 "",
           agent_provider := optField 5,
           agent_status := optField 6,
           agent_task := optField 7 }
  else
    none

/-- The `tmux::list_panes` (src/tmux.rs lines 66-117) over an explicit
subprocess outcome: a spawn failure is an error; a failing exit is
tolerated (empty batch) only for a missing server or client, and is an
error otherwise; a successful exit yields the parsed lines. -/
def list_panes (out : Option CmdOutput) : Except String (List Pane) :=
  match out with
  | none => Except.error "Failed to execute tmux list-panes"
  | some o =>
      if o.success = false then
        if containsSub o.stderr "no server running" ||
            containsSub o.stderr "no current client" then
          Except.ok []
        else
          Except.error ("tmux list-panes failed: " ++ o.stderr)
      else
        Except.ok ((rustLines o.stdout).filterMap parsePaneLine)

/-- The `App::refresh` (src/app.rs lines 96-190): obtain the batch from the
pane source — the `?` on `tmux::list_panes()` returns the error with
`self` untouched — and otherwise merge it. -/
def App.refresh (app : App) (out : Option CmdOutput) (now : Nat) :
    App × Except String (List StateChangeNotification) :=
  match list_panes out with
  | Except.error e => (app, Except.error e)
  | Except.ok panes =>
      let r := app.merge panes now
      (r.1, Except.ok r.2)

/-- A JSON value as exposed by `serde_json::Value`; numbers are split into
integers (the only ones `as_u64` accepts) and an opaque non-integral
constructor. -/
inductive Json where
  | null
  | bool (b : Bool)
  | int (n : Int)
  | nonIntegral
  | str (s : String)
  | arr (elems : List Json)
  | obj (fields : List (String × Json))

/-- The `serde_json::Value::get(key)`: field lookup on objects, `None`
otherwise. -/
def Json.get (j : Json) (key : String) : Option Json :=
  match j with
  | Json.obj fields => (fields.find? (fun kv => kv.1 = key)).map (fun kv => kv.2)
  | _ => none

/-- The `serde_json::Value::as_u64`: integers in the `u64` range only. -/
def Json.as_u64 (j : Json) : Option Nat :=
  match j with
  | Json.int n => if 0 ≤ n ∧ n < 2 ^ 64 then some n.toNat else none
  | _ => none

/-- The filesystem and environment a resolver run can observe, plus the
JSON parser (`serde_json::from_str`, uninterpreted: `none` models a parse
error).  Paths are joined with `/`. -/
structure FileSystem where
  home_dir : Option String
  dir_exists : String → Bool
  read_dir : String → Option (List String)
  modified : String → Option Nat
  read_to_string : String → Option String
  parse_json : String → Option Json

namespace cost

/-- The `claude_projects_dir` (src/cost.rs lines 38-40). -/
def claude_projects_dir (fs : FileSystem) : Option String :=
  fs.home_dir.map (fun h => h ++ "/" ++ ".claude" ++ "/" ++ "projects")

/-- The `hash_path` (src/cost.rs lines 43-45): `path.replace('/', "-")`; a
single-character pattern replaced by a single-character string is a
character-wise map. -/
def hash_path (path : String) : String :=
  String.mk (path.data.map (fun c => if c = '/' then '-' else c))

/-- The `Path::extension()` for a `/`-separated path: the part of the file
name after its last `.`, undefined when there is no `.` or when the only
`.` leads a hidden file name. -/
def pathExtension (p : String) : Option String :=
  let name := ((splitOnChar '/' p.data).map String.mk).getLastD p
  match splitOnChar '.' name.data with
  | [] => none
  | [_] => none
  | first :: rest =>
      if first = [] ∧ rest.length = 1 then none
      else (rest.getLast?).map String.mk

/-- The `find_session_files` (src/cost.rs lines 48-71): the `.jsonl` entries of
`~/.claude/projects/{hash_path dir}`, empty when the home directory is
unknown, the session directory does not exist, or it cannot be read. -/
def find_session_files (fs : FileSystem) (working_dir : String) : List String :=
  match claude_projects_dir fs with
  | none => []
  | some projects_dir =>
      let path_hash := hash_path working_dir
      let session_dir := projects_dir ++ "/" ++ path_hash
      if fs.dir_exists session_dir = false then []
      else
        match fs.read_dir session_dir with
        | some entries =>
            (entries.map (fun name => session_dir ++ "/" ++ name)).filter
              (fun p => (pathExtension p).rec false (fun e => e = "jsonl"))
        | none => []

/-- The per-line step of `parse_jsonl_tokens` (src/cost.rs lines 82-105):
skip blank lines, skip lines that fail to parse, and otherwise add each
present `usage` field into the running totals. -/
def addLineUsage (parse : String → Option Json) (usage : TokenUsage)
    (line : String) : TokenUsage :=
  if rustTrim line = "" then usage
  else
    match parse line with
    | none => usage
    | some json =>
        match json.get "usage" with
        | none => usage
        | some usage_obj =>
            let u := usage
            let u :=
              match (usage_obj.get "input_tokens").bind Json.as_u64 with
              | some input => { u with input_tokens := u.input_tokens + input }
              | none => u
            let u :=
              match (usage_obj.get "output_tokens").bind Json.as_u64 with
              | some output => { u with output_tokens := u.output_tokens + output }
              | none => u
            let u :=
              match (usage_obj.get "cache_read_input_tokens").bind Json.as_u64 with
              | some c => { u with cache_read_tokens := u.cache_read_tokens + c }
              | none => u
            let u :=
              match (usage_obj.get "cache_creation_input_tokens").bind Json.as_u64 with
              | some c => { u with cache_write_tokens := u.cache_write_tokens + c }
              | none => u
            u

/-- The `parse_jsonl_tokens` (src/cost.rs lines 74-108): an unreadable file
yields the zero usage, otherwise every line is folded through
`addLineUsage`. -/
def parse_jsonl_tokens (fs : FileSystem) (path : String) : TokenUsage :=
  match fs.read_to_string path with
  | none => TokenUsage.default
  | some content =>
      (rustLines content).foldl (addLineUsage fs.parse_json) TokenUsage.default

/-- The `max_by_key` selection of `get_claude_usage`
(src/cost.rs lines 115-124): keep the files whose modification time is
readable and take the one with the greatest time, the later one on ties
(Rust's `max_by_key` returns the last maximum). -/
def most_recent_file (fs : FileSystem) (files : List String) : Option String :=
  let timed := files.filterMap (fun p => (fs.modified p).map (fun t => (p, t)))
  (timed.foldl
    (fun best x =>
      match best with
      | none => some x
      | some y => if y.2 ≤ x.2 then some x else some y)
    none).map (fun x => x.1)

/-- The `get_claude_usage` (src/cost.rs lines 111-130). -/
def get_claude_usage (fs : FileSystem) (working_dir : String) : TokenUsage :=
  match most_recent_file fs (find_session_files fs working_dir) with
  | some path => parse_jsonl_tokens fs path
  | none => TokenUsage.default

end cost


namespace claude

/-- The `encode_path` (src/providers/claude.rs lines 169-176): map each of
`/`, `_`, `.` and space to `-`, leaving every other character alone. -/
def encode_path (path : String) : String :=
  String.mk (path.data.map
    (fun c => if c = '/' ∨ c = '_' ∨ c = '.' ∨ c = ' ' then '-' else c))

end claude


/-- The detection result computed for one observation inside the merge loop
(src/app.rs lines 113-117). -/
def observedResult (p : Pane) : DetectionResult :=
  DetectionResult.from_pane p.agent_provider p.agent_status p.agent_task

/-- The transition event a single observation produces against a record
table: nothing for the excluded pane or an unknown id, and otherwise the
`Working → {WaitingForInput, PermissionRequired}` notification of
src/app.rs lines 144-157. -/
def transition_event (states : List PaneState) (selfId : Option String)
    (p : Pane) : Option StateChangeNotification :=
  if some p.id = selfId then none
  else
    match states.find? (fun s => s.pane.id = p.id) with
    | some existing => transitionNotificationOf existing p (observedResult p)
    | none => none

/-- The view order stated as a plain lexicographic predicate over
(status rank, session name, window index, pane index). -/
def paneViewLe (a b : PaneState) : Prop :=
  status_order a.status.status < status_order b.status.status ∨
    (status_order a.status.status = status_order b.status.status ∧
      (a.pane.session_name < b.pane.session_name ∨
        (a.pane.session_name = b.pane.session_name ∧
          (a.pane.window_index < b.pane.window_index ∨
            (a.pane.window_index = b.pane.window_index ∧
              a.pane.pane_index ≤ b.pane.pane_index)))))

/-- A sample observation of a working Claude pane. -/
def samplePaneWorking : Pane :=
  { id := "%1", session_name := "dev", window_index := 1, pane_index := 0,
    current_path := "/home/u/proj", agent_provider := some "claude",
    agent_status := some "working", agent_task := none }

/-- The same pane later observed as waiting for input. -/
def samplePaneWaiting : Pane :=
  { samplePaneWorking with agent_status := some "waiting" }

/-- The record tracked for `samplePaneWorking` since tick 5. -/
def sampleWorkingState : PaneState :=
  { pane := samplePaneWorking, status := { status := Status.Working, task := none },
    last_change := 0, status_changed_at := 5, previous_status := none,
    stats := PaneStats.default, tokens := none }

/-- An engine holding exactly the sample record. -/
def sampleApp : App :=
  { pane_states := [sampleWorkingState], selected_index := 0,
    show_all_panes := false, compact_mode := false, group_by_session := false,
    show_stats := false, collapsed_sessions := [], status_filter := none,
    self_pane_id := none }

/-- The sample engine with a stale selection index. -/
def staleSelectionApp : App :=
  { sampleApp with selected_index := 3 }

/-- One `usage` field read the way `parse_jsonl_tokens` reads it: a missing
or non-`u64` field counts as zero. -/
def usage_field (obj : Json) (key : String) : Nat :=
  ((obj.get key).bind Json.as_u64).getD 0

/-- The usage contributed by one line of a session file: zero for a blank
line, a line that fails to parse, or a line without a `usage` object. -/
def line_usage (parse : String → Option Json) (line : String) : TokenUsage :=
  if rustTrim line = "" then TokenUsage.default
  else
    match parse line with
    | none => TokenUsage.default
    | some json =>
        match json.get "usage" with
        | none => TokenUsage.default
        | some obj =>
            { input_tokens := usage_field obj "input_tokens",
              output_tokens := usage_field obj "output_tokens",
              cache_read_tokens := usage_field obj "cache_read_input_tokens",
              cache_write_tokens := usage_field obj "cache_creation_input_tokens" }

/-- Component-wise sum of token usages. -/
def TokenUsage.add (a b : TokenUsage) : TokenUsage :=
  { input_tokens := a.input_tokens + b.input_tokens,
    output_tokens := a.output_tokens + b.output_tokens,
    cache_read_tokens := a.cache_read_tokens + b.cache_read_tokens,
    cache_write_tokens := a.cache_write_tokens + b.cache_write_tokens }

/-- The sum of a list of token usages. -/
def usage_sum (l : List TokenUsage) : TokenUsage :=
  l.foldr TokenUsage.add TokenUsage.default

/-- A filesystem with nothing in it. -/
def emptyFs : FileSystem :=
  { home_dir := none, dir_exists := fun _ => false, read_dir := fun _ => none,
    modified := fun _ => none, read_to_string := fun _ => none,
    parse_json := fun _ => none }

/-- A filesystem with a home directory but no session directories. -/
def homeFs : FileSystem :=
  { emptyFs with home_dir := some "/root" }

/-- A two-line session file: one parseable line and one malformed line. -/
def sampleContent : String :=
  "goodline\nbadline\n"

/-- A parse oracle for `sampleContent`: the good line carries a `usage`
object of 1000000 input and 100000 output tokens; everything else is a
parse error. -/
def sampleParse : String → Option Json := fun line =>
  if line = "goodline" then
    some (Json.obj [("usage",
      Json.obj [("input_tokens", Json.int 1000000),
                ("output_tokens", Json.int 100000)])])
  else none

/-- A filesystem holding one readable session file with `sampleContent`. -/
def jsonlFs : FileSystem :=
  { home_dir := some "/root", dir_exists := fun _ => true,
    read_dir := fun _ => some ["s.jsonl"], modified := fun _ => some 1,
    read_to_string := fun _ => some sampleContent, parse_json := sampleParse }

/-- The `updateExisting` installs the new observation as the record's pane. -/
theorem updateExisting_pane (e : PaneState) (p : Pane) (st : DetectionResult)
    (now : Nat) : (updateExisting e p st now).pane = p := by
  unfold updateExisting
  split <;> rfl

/-- The `find?` commutes with a map that does not disturb the predicate. -/
theorem find?_map_invariant {α : Type} (l : List α) (g : α → α) (pred : α → Bool)
    (h : ∀ a, pred (g a) = pred a) :
    (l.map g).find? pred = (l.find? pred).map g := by
  induction l with
  | nil => rfl
  | cons a t ih =>
      simp only [List.map_cons, List.find?_cons, h a]
      cases pred a <;> simp [ih]

/-- Pointwise-equal predicates find the same element. -/
theorem find?_congr {α : Type} (l : List α) (p q : α → Bool)
    (h : ∀ a, p a = q a) : l.find? p = l.find? q := by
  induction l with
  | nil => rfl
  | cons a t ih =>
      simp only [List.find?_cons, h a]
      cases q a <;> simp [ih]

/-- How one loop iteration of the merge affects the record found for a given
id: the iteration only touches the slot of its own (non-self) observation,
updating it when present and inserting a fresh record otherwise. -/
theorem processPane_find? (selfId : Option String) (now : Nat)
    (acc : RefreshAcc) (p : Pane) (i : String) :
    (processPane selfId now acc p).pane_states.find? (fun s => s.pane.id = i) =
      if some p.id = selfId then
        acc.pane_states.find? (fun s => s.pane.id = i)
      else if p.id = i then
        match acc.pane_states.find? (fun s => s.pane.id = i) with
        | some r => some (updateExisting r p (observedResult p) now)
        | none => some (freshState p (observedResult p) now)
      else
        acc.pane_states.find? (fun s => s.pane.id = i) := by
  unfold processPane
  by_cases hself : some p.id = selfId
  · simp [hself]
  · simp only [hself, if_neg hself, if_false]
    by_cases hid : p.id = i
    · subst hid
      simp only [if_pos rfl]
      cases hfind : acc.pane_states.find? (fun s => decide (s.pane.id = p.id)) with
      | some existing =>
          simp only
          have hupd : ∀ s : PaneState,
              (fun s : PaneState => decide (s.pane.id = p.id))
                ((fun s => if s.pane.id = p.id then updateExisting s p (observedResult p) now else s) s)
              = decide (s.pane.id = p.id) := by
            intro s
            by_cases hs : s.pane.id = p.id
            · simp [hs, updateExisting_pane]
            · simp [hs]
          rw [find?_map_invariant _ _ _ hupd, hfind]
          have hex : existing.pane.id = p.id := by
            have := List.find?_some hfind
            simpa using this
          simp [hex, observedResult]
      | none =>
          simp only
          rw [List.find?_append, hfind]
          simp [freshState, observedResult]
    · simp only [if_neg hid]
      cases hfind0 : acc.pane_states.find? (fun s => decide (s.pane.id = p.id)) with
      | some existing =>
          simp only
          have hupd : ∀ s : PaneState,
              (fun s : PaneState => decide (s.pane.id = i))
                ((fun s => if s.pane.id = p.id then updateExisting s p (observedResult p) now else s) s)
              = decide (s.pane.id = i) := by
            intro s
            by_cases hs : s.pane.id = p.id
            · have h1 : (updateExisting s p (observedResult p) now).pane.id = p.id := by
                rw [updateExisting_pane]
              simp [hs, h1, hid]
            · simp [hs]
          rw [find?_map_invariant _ _ _ hupd]
          cases hfind : acc.pane_states.find? (fun s => decide (s.pane.id = i)) with
          | some r =>
              have hr : r.pane.id = i := by
                have := List.find?_some hfind
                simpa using this
              have : r.pane.id ≠ p.id := by
                rw [hr]
                exact fun h => hid h.symm
              simp [this]
          | none => simp
      | none =>
          simp only
          rw [List.find?_append]
          cases hfind : acc.pane_states.find? (fun s => decide (s.pane.id = i)) with
          | some r => simp
          | none => simp [freshState, hid]

/-- The ids seen by the merge loop are exactly the non-excluded batch ids,
in batch order (src/app.rs line 109). -/
theorem foldl_seen_ids (selfId : Option String) (now : Nat)
    (panes : List Pane) (acc : RefreshAcc) :
    (panes.foldl (processPane selfId now) acc).seen_ids =
      acc.seen_ids ++
        (panes.filter (fun p => !(some p.id = selfId))).map Pane.id := by
  induction panes generalizing acc with
  | nil => simp
  | cons p rest ih =>
      rw [List.foldl_cons, ih]
      by_cases hself : some p.id = selfId
      · have hstep : (processPane selfId now acc p).seen_ids = acc.seen_ids := by
          unfold processPane
          simp [hself]
        simp [hself, hstep]
      · have hstep : (processPane selfId now acc p).seen_ids =
            acc.seen_ids ++ [p.id] := by
          unfold processPane
          simp only [if_neg hself]
          cases acc.pane_states.find? (fun s => s.pane.id = p.id) <;> rfl
        simp [hself, hstep]

/-- Ids carrying no non-excluded observation in the batch keep their slot
through the whole merge loop. -/
theorem foldl_find?_untouched (selfId : Option String) (now : Nat)
    (panes : List Pane) (acc : RefreshAcc) (i : String)
    (h : ∀ p ∈ panes, p.id ≠ i ∨ some p.id = selfId) :
    (panes.foldl (processPane selfId now) acc).pane_states.find?
        (fun s => s.pane.id = i) =
      acc.pane_states.find? (fun s => s.pane.id = i) := by
  induction panes generalizing acc with
  | nil => rfl
  | cons p rest ih =>
      rw [List.foldl_cons, ih _ (fun q hq => h q (List.mem_cons_of_mem p hq))]
      rw [processPane_find?]
      rcases h p (List.mem_cons_self p rest) with hne | hself
      · by_cases hs : some p.id = selfId
        · simp [hs]
        · simp [hs, hne]
      · simp [hself]

/-- The record table produced by the merge loop, observed per id: when the
batch ids are pairwise distinct, the slot of id `i` is rewritten by the
unique non-excluded observation carrying `i` (update when the id was known,
fresh insert otherwise) and left alone when there is none. -/
theorem foldl_find? (selfId : Option String) (now : Nat)
    (panes : List Pane) (acc : RefreshAcc) (i : String)
    (h : (panes.map Pane.id).Nodup) :
    (panes.foldl (processPane selfId now) acc).pane_states.find?
        (fun s => s.pane.id = i) =
      match (panes.filter (fun p => !(some p.id = selfId))).find?
          (fun p => p.id = i) with
      | some p =>
          some (match acc.pane_states.find? (fun s => s.pane.id = i) with
            | some r => updateExisting r p (observedResult p) now
            | none => freshState p (observedResult p) now)
      | none => acc.pane_states.find? (fun s => s.pane.id = i) := by
  induction panes generalizing acc with
  | nil => rfl
  | cons p rest ih =>
      have hmap : p.id ∉ rest.map Pane.id ∧ (rest.map Pane.id).Nodup := by
        rw [List.map_cons, List.nodup_cons] at h
        exact h
      have hrest : (rest.map Pane.id).Nodup := hmap.2
      have hnotin : p.id ∉ rest.map Pane.id := hmap.1
      rw [List.foldl_cons]
      by_cases hself : some p.id = selfId
      · have hskip : processPane selfId now acc p = acc := by
          unfold processPane
          simp [hself]
        rw [hskip, ih _ hrest]
        simp [hself]
      · by_cases hid : p.id = i
        · subst hid
          have huntouched : ∀ q ∈ rest, q.id ≠ p.id ∨ some q.id = selfId := by
            intro q hq
            left
            intro hqe
            exact hnotin (hqe ▸ List.mem_map_of_mem Pane.id hq)
          rw [foldl_find?_untouched selfId now rest _ p.id huntouched]
          rw [processPane_find?]
          simp only [hself, if_neg hself, if_pos rfl, List.filter_cons]
          simp only [hself, decide_False, Bool.not_false, if_true, List.find?_cons,
            decide_True]
          cases acc.pane_states.find? (fun s => s.pane.id = p.id) <;> rfl
        · rw [ih _ hrest]
          have hslot : (processPane selfId now acc p).pane_states.find?
              (fun s => s.pane.id = i) =
              acc.pane_states.find? (fun s => s.pane.id = i) := by
            rw [processPane_find?]
            simp [hself, hid]
          rw [hslot]
          simp [hself, hid]

/-- One loop iteration appends exactly the event of its observation. -/
theorem processPane_notifications (selfId : Option String) (now : Nat)
    (acc : RefreshAcc) (p : Pane) :
    (processPane selfId now acc p).notifications =
      acc.notifications ++
        (transition_event acc.pane_states selfId p).toList := by
  unfold processPane transition_event
  by_cases hself : some p.id = selfId
  · simp [hself]
  · simp only [if_neg hself]
    cases hfind : acc.pane_states.find? (fun s => s.pane.id = p.id) with
    | some existing =>
        simp only
        by_cases hne : existing.status.status ≠ (observedResult p).status
        · simp [observedResult] at hne ⊢
          simp [hne]
        · have heq : existing.status.status = (observedResult p).status := by
            by_contra hc
            exact hne hc
          have hnone : transitionNotificationOf existing p (observedResult p) = none := by
            unfold transitionNotificationOf
            rw [if_neg]
            rintro ⟨hw, hcases⟩
            rcases hcases with hwi | hpr
            · rw [heq, hwi] at hw
              cases hw
            · rw [heq, hpr] at hw
              cases hw
          simp only [observedResult] at heq hnone ⊢
          simp [heq, hnone]
    | none => simp

/-- When the batch ids are pairwise distinct, the merge loop's notification
list is exactly the per-observation events against the initial table, in
batch order. -/
theorem foldl_notifications (selfId : Option String) (now : Nat)
    (panes : List Pane) (acc : RefreshAcc)
    (h : (panes.map Pane.id).Nodup) :
    (panes.foldl (processPane selfId now) acc).notifications =
      acc.notifications ++
        panes.filterMap (transition_event acc.pane_states selfId) := by
  induction panes generalizing acc with
  | nil => simp
  | cons p rest ih =>
      have hmap : p.id ∉ rest.map Pane.id ∧ (rest.map Pane.id).Nodup := by
        rw [List.map_cons, List.nodup_cons] at h
        exact h
      rw [List.foldl_cons, ih _ hmap.2, processPane_notifications]
      have hsame : ∀ q ∈ rest,
          transition_event (processPane selfId now acc p).pane_states selfId q =
            transition_event acc.pane_states selfId q := by
        intro q hq
        have hqid : q.id ≠ p.id := by
          intro hqe
          exact hmap.1 (hqe ▸ List.mem_map_of_mem Pane.id hq)
        unfold transition_event
        by_cases hqself : some q.id = selfId
        · simp [hqself]
        · simp only [if_neg hqself]
          rw [processPane_find? selfId now acc p q.id]
          by_cases hpself : some p.id = selfId
          · simp [hpself]
          · simp [hpself, Ne.symm hqid]
      rw [List.filterMap_congr hsame, List.filterMap_cons]
      cases hev : transition_event acc.pane_states selfId p with
      | none => simp
      | some ev => simp

/-- The record table after a merge, independent of the selection clamp. -/
theorem merge_pane_states (app : App) (panes : List Pane) (now : Nat) :
    (app.merge panes now).1.pane_states =
      (panes.foldl (processPane app.self_pane_id now)
          ⟨app.pane_states, [], []⟩).pane_states.filter
        (fun s =>
          (panes.foldl (processPane app.self_pane_id now)
              ⟨app.pane_states, [], []⟩).seen_ids.contains s.pane.id) := by
  unfold App.merge
  dsimp only
  split <;> rfl

/-- The notifications returned by a merge. -/
theorem merge_snd (app : App) (panes : List Pane) (now : Nat) :
    (app.merge panes now).2 =
      (panes.foldl (processPane app.self_pane_id now)
          ⟨app.pane_states, [], []⟩).notifications := by
  rfl

/-- The record a merge leaves for a given id (batch ids pairwise distinct):
the unique non-excluded observation carrying the id rewrites the slot, and
an id without such an observation has no record at all. -/
theorem merge_find? (app : App) (panes : List Pane) (now : Nat) (i : String)
    (h : (panes.map Pane.id).Nodup) :
    (app.merge panes now).1.pane_states.find? (fun s => s.pane.id = i) =
      match (panes.filter (fun p => !(some p.id = app.self_pane_id))).find?
          (fun p => p.id = i) with
      | some p =>
          some (match app.pane_states.find? (fun s => s.pane.id = i) with
            | some r => updateExisting r p (observedResult p) now
            | none => freshState p (observedResult p) now)
      | none => none := by
  rw [merge_pane_states, List.find?_filter]
  set F := panes.foldl (processPane app.self_pane_id now)
    (⟨app.pane_states, [], []⟩ : RefreshAcc) with hF
  have hseen : F.seen_ids =
      (panes.filter (fun p => !(some p.id = app.self_pane_id))).map Pane.id := by
    rw [hF, foldl_seen_ids]
    rfl
  by_cases hc : i ∈ F.seen_ids
  · have hpred : ∀ s : PaneState,
        (decide ((F.seen_ids.contains s.pane.id = true) ∧ (decide (s.pane.id = i) = true)))
          = decide (s.pane.id = i) := by
      intro s
      by_cases hs : s.pane.id = i
      · subst hs
        simp [List.elem_iff.mpr hc, List.contains]
        exact hc
      · simp [hs]
    rw [find?_congr _ _ _ hpred, hF, foldl_find? _ _ _ _ _ h]
    have hex : ∃ p ∈ panes.filter (fun p => !(some p.id = app.self_pane_id)),
        p.id = i := by
      rw [hseen] at hc
      rcases List.mem_map.mp hc with ⟨p, hp, hpi⟩
      exact ⟨p, hp, hpi⟩
    have hsome : ((panes.filter (fun p => !(some p.id = app.self_pane_id))).find?
        (fun p => p.id = i)).isSome = true := by
      rw [List.find?_isSome]
      rcases hex with ⟨p, hp, hpi⟩
      exact ⟨p, hp, by simpa using hpi⟩
    cases hfind : (panes.filter (fun p => !(some p.id = app.self_pane_id))).find?
        (fun p => p.id = i) with
    | none => rw [hfind] at hsome; cases hsome
    | some p => rfl
  · have hpred : ∀ s : PaneState,
        (decide ((F.seen_ids.contains s.pane.id = true) ∧ (decide (s.pane.id = i) = true)))
          = false := by
      intro s
      by_cases hs : s.pane.id = i
      · subst hs
        have : ¬ (F.seen_ids.contains s.pane.id = true) := by
          intro hct
          exact hc (List.elem_iff.mp hct)
        simp [this]
        exact hc
      · simp [hs]
    rw [find?_congr _ _ _ hpred]
    have hnone : (panes.filter (fun p => !(some p.id = app.self_pane_id))).find?
        (fun p => p.id = i) = none := by
      rw [List.find?_eq_none]
      intro p hp hpi
      apply hc
      rw [hseen]
      exact List.mem_map.mpr ⟨p, hp, by simpa using hpi⟩
    rw [hnone]
    simp

/-- The notifications of a merge are the per-observation transition events
against the pre-merge table, in batch order. -/
theorem merge_notifications (app : App) (panes : List Pane) (now : Nat)
    (h : (panes.map Pane.id).Nodup) :
    (app.merge panes now).2 =
      panes.filterMap (transition_event app.pane_states app.self_pane_id) := by
  rw [merge_snd, foldl_notifications _ _ _ _ h]
  rfl

/-- C1: after a merge over a batch with pairwise-distinct ids, an id has a
live record exactly when it occurs in the batch and is not the excluded
(self) id: every non-excluded batch id has a record, and every record whose
id is absent from the batch (or excluded) is gone. -/
theorem merge_live_ids (app : App) (panes : List Pane) (now : Nat)
    (h : (panes.map Pane.id).Nodup) (i : String) :
    (∃ s ∈ (app.merge panes now).1.pane_states, s.pane.id = i) ↔
      ((∃ p ∈ panes, p.id = i) ∧ app.self_pane_id ≠ some i) := by
  have hiff : (∃ s ∈ (app.merge panes now).1.pane_states, s.pane.id = i) ↔
      (((app.merge panes now).1.pane_states.find?
        (fun s => s.pane.id = i)).isSome = true) := by
    rw [List.find?_isSome]
    simp
  rw [hiff, merge_find? app panes now i h]
  cases hfind : (panes.filter (fun p => !(some p.id = app.self_pane_id))).find?
      (fun p => p.id = i) with
  | some p =>
      have hp := List.find?_some hfind
      have hpmem : p ∈ panes.filter (fun q => !(some q.id = app.self_pane_id)) :=
        List.mem_of_find?_eq_some hfind
      have hpi : p.id = i := by simpa using hp
      rcases List.mem_filter.mp hpmem with ⟨hpp, hpself⟩
      simp only [Option.isSome_some, true_iff]
      refine ⟨⟨p, hpp, hpi⟩, ?_⟩
      intro hself
      rw [hself] at hpself
      simp [hpi] at hpself
  | none =>
      simp only [Option.isSome_none, Bool.false_eq_true, false_iff]
      rintro ⟨⟨p, hpp, hpi⟩, hself⟩
      rw [List.find?_eq_none] at hfind
      refine hfind p (List.mem_filter.mpr ⟨hpp, ?_⟩) (by simpa using hpi)
      simp only [Bool.not_eq_true']
      rw [decide_eq_false_iff_not]
      intro hs
      rw [hpi] at hs
      exact hself hs.symm

/-- C2: during a merge (batch ids pairwise distinct), the observation for an
existing record with a different observed status adds the elapsed time since
`status_changed_at` to the bucket of the old status (nothing for
`NotDetected`), bumps the state-change counter by exactly one, records the
previous status and resets `status_changed_at` to now; an observation with
an unchanged status leaves the counters untouched, and a fresh record
starts with all counters zero. -/
theorem merge_accounting (app : App) (panes : List Pane) (now : Nat)
    (i : String) (p : Pane)
    (h : (panes.map Pane.id).Nodup)
    (hp : (panes.filter (fun q => !(some q.id = app.self_pane_id))).find?
      (fun q => q.id = i) = some p) :
    (∀ r, app.pane_states.find? (fun s => s.pane.id = i) = some r →
      ((observedResult p).status ≠ r.status.status →
        (app.merge panes now).1.pane_states.find? (fun s => s.pane.id = i) =
          some { pane := p,
                 status := observedResult p,
                 last_change := now,
                 status_changed_at := now,
                 previous_status := some r.status.status,
                 stats := { total_working_secs := r.stats.total_working_secs +
                              (if r.status.status = Status.Working then
                                now - r.status_changed_at else 0),
                            total_waiting_secs := r.stats.total_waiting_secs +
                              (if r.status.status = Status.WaitingForInput then
                                now - r.status_changed_at else 0),
                            total_permission_secs := r.stats.total_permission_secs +
                              (if r.status.status = Status.PermissionRequired then
                                now - r.status_changed_at else 0),
                            state_changes := r.stats.state_changes + 1 },
                 tokens := r.tokens }) ∧
      ((observedResult p).status = r.status.status →
        ((app.merge panes now).1.pane_states.find?
            (fun s => s.pane.id = i)).map PaneState.stats = some r.stats)) ∧
    (app.pane_states.find? (fun s => s.pane.id = i) = none →
      ((app.merge panes now).1.pane_states.find?
          (fun s => s.pane.id = i)).map PaneState.stats =
        some PaneStats.default) := by
  have hm := merge_find? app panes now i h
  rw [hp] at hm
  constructor
  · intro r hr
    rw [hr] at hm
    have hm2 : (app.merge panes now).1.pane_states.find? (fun s => s.pane.id = i) =
        some (updateExisting r p (observedResult p) now) := by
      rw [hm]
    constructor
    · intro hdiff
      rw [hm2]
      have hne : r.status.status ≠ (observedResult p).status := Ne.symm hdiff
      unfold updateExisting
      rw [if_pos hne]
      cases hrs : r.status.status <;> simp [hrs]
    · intro hsame
      rw [hm2]
      unfold updateExisting
      rw [if_neg]
      · rfl
      · intro hcon
        exact hcon hsame.symm
  · intro hr
    rw [hr] at hm
    have hm2 : (app.merge panes now).1.pane_states.find? (fun s => s.pane.id = i) =
        some (freshState p (observedResult p) now) := by
      rw [hm]
    rw [hm2]
    rfl

/-- C3: a merge over a batch with pairwise-distinct ids emits exactly one
`StateChangeNotification` for each observation whose record moves from
`Working` to `WaitingForInput` or to `PermissionRequired` — with
`is_permission` true exactly for `PermissionRequired` — and none for any
other status pair (or for unknown/excluded ids). -/
theorem merge_transition_events (app : App) (panes : List Pane) (now : Nat)
    (h : (panes.map Pane.id).Nodup) :
    (app.merge panes now).2 =
      panes.filterMap (fun p =>
        if some p.id = app.self_pane_id then none
        else
          match app.pane_states.find? (fun s => s.pane.id = p.id) with
          | none => none
          | some r =>
              if r.status.status = Status.Working ∧
                  ((observedResult p).status = Status.WaitingForInput ∨
                    (observedResult p).status = Status.PermissionRequired) then
                some { pane_name := p.display_name,
                       folder_name := folder_name_of p.current_path,
                       session_name := p.session_name,
                       window_index := p.window_index,
                       pane_index := p.pane_index,
                       is_permission :=
                         (observedResult p).status = Status.PermissionRequired }
              else none) := by
  rw [merge_notifications _ _ _ h]
  apply List.filterMap_congr
  intro p _
  unfold transition_event
  by_cases hself : some p.id = app.self_pane_id
  · simp [hself]
  · simp only [if_neg hself]
    cases app.pane_states.find? (fun s => s.pane.id = p.id) with
    | none => rfl
    | some r => rfl

/-- C4: during a merge (batch ids pairwise distinct), an observation whose
status matches the stored one only refreshes the display data (the pane
fields and the detection result): the record's accumulated counters,
state-change counter, `status_changed_at`, `last_change`, previous status
and cached usage are all unchanged. -/
theorem merge_same_status_refresh (app : App) (panes : List Pane) (now : Nat)
    (i : String) (r : PaneState) (p : Pane)
    (h : (panes.map Pane.id).Nodup)
    (hr : app.pane_states.find? (fun s => s.pane.id = i) = some r)
    (hp : (panes.filter (fun q => !(some q.id = app.self_pane_id))).find?
      (fun q => q.id = i) = some p)
    (hsame : (observedResult p).status = r.status.status) :
    (app.merge panes now).1.pane_states.find? (fun s => s.pane.id = i) =
      some { r with pane := p, status := observedResult p } := by
  have hm := merge_find? app panes now i h
  rw [hp, hr] at hm
  have hm2 : (app.merge panes now).1.pane_states.find? (fun s => s.pane.id = i) =
      some (updateExisting r p (observedResult p) now) := by
    rw [hm]
  rw [hm2]
  unfold updateExisting
  rw [if_neg]
  intro hcon
  exact hcon hsame.symm

/-- The `paneCmp` is the lexicographic composition of the four key comparators. -/
theorem paneCmp_eq_compareLex :
    paneCmp =
      compareLex (compareOn (fun s : PaneState => status_order s.status.status))
        (compareLex (compareOn (fun s : PaneState => s.pane.session_name))
          (compareLex (compareOn (fun s : PaneState => s.pane.window_index))
            (compareOn (fun s : PaneState => s.pane.pane_index)))) :=
  rfl

/-- The comparator of `visible_panes` is transitive. -/
theorem paneCmp_transCmp : Batteries.TransCmp paneCmp := by
  rw [paneCmp_eq_compareLex]
  infer_instance

/-- The `isLE` is the complement of `gt`. -/
theorem ordering_isLE_iff (o : Ordering) : o.isLE = true ↔ o ≠ Ordering.gt := by
  cases o <;> simp [Ordering.isLE]

/-- The `sort_by` relation is transitive. -/
theorem paneCmp_isLE_trans (a b c : PaneState)
    (h₁ : (paneCmp a b).isLE = true) (h₂ : (paneCmp b c).isLE = true) :
    (paneCmp a c).isLE = true := by
  have := paneCmp_transCmp
  rw [ordering_isLE_iff] at h₁ h₂ ⊢
  exact Batteries.TransCmp.le_trans h₁ h₂

/-- The `sort_by` relation is total. -/
theorem paneCmp_isLE_total (a b : PaneState) :
    ((paneCmp a b).isLE || (paneCmp b a).isLE) = true := by
  have := paneCmp_transCmp
  by_cases h : paneCmp a b = Ordering.gt
  · have hba : paneCmp b a = Ordering.lt := Batteries.OrientedCmp.cmp_eq_gt.mp h
    rw [hba]
    simp [Ordering.isLE]
  · have : (paneCmp a b).isLE = true := (ordering_isLE_iff _).mpr h
    rw [this]
    simp

/-- The `Ordering.then` is lexicographic on the `isLE` level. -/
theorem ordering_then_isLE (o₁ o₂ : Ordering) :
    ((o₁.then o₂).isLE = true) ↔
      (o₁ = Ordering.lt ∨ (o₁ = Ordering.eq ∧ o₂.isLE = true)) := by
  cases o₁ <;> simp [Ordering.then, Ordering.isLE]

/-- The `sort_by` comparator accepts a pair exactly when the lexicographic
key predicate holds. -/
theorem paneCmp_isLE_iff (a b : PaneState) :
    (paneCmp a b).isLE = true ↔ paneViewLe a b := by
  unfold paneCmp paneViewLe
  rw [ordering_then_isLE, ordering_then_isLE, ordering_then_isLE]
  rw [compare_lt_iff_lt, compare_eq_iff_eq, compare_lt_iff_lt, compare_eq_iff_eq,
    compare_lt_iff_lt, compare_eq_iff_eq, ordering_isLE_iff, compare_le_iff_le]

/-- C5: the visible view holds exactly the records that pass both filters
(`NotDetected` dropped unless `show_all_panes`; exact status match when a
filter is set), in ascending lexicographic order of (status rank, session
name, window index, pane index), whatever the order of the stored records —
with rank 0 for `PermissionRequired`, 1 for `Working`, 2 for
`WaitingForInput` and 3 for `NotDetected`. -/
theorem visible_panes_spec (app : App) :
    (∀ s : PaneState, s ∈ app.visible_panes ↔
      (s ∈ app.pane_states ∧
        (app.show_all_panes = true ∨ s.status.status ≠ Status.NotDetected) ∧
        (∀ f, app.status_filter = some f → s.status.status = f))) ∧
    app.visible_panes.Pairwise paneViewLe ∧
    (status_order Status.PermissionRequired = 0 ∧
      status_order Status.Working = 1 ∧
      status_order Status.WaitingForInput = 2 ∧
      status_order Status.NotDetected = 3) := by
  refine ⟨?_, ?_, rfl, rfl, rfl, rfl⟩
  · intro s
    unfold App.visible_panes
    rw [(List.mergeSort_perm _ _).mem_iff]
    rw [List.mem_filter, List.mem_filter]
    cases hsf : app.status_filter with
    | none =>
        simp [and_assoc]
    | some f =>
        simp [and_assoc]
  · unfold App.visible_panes
    exact (List.sorted_mergeSort
        (fun a b c h₁ h₂ => paneCmp_isLE_trans a b c h₁ h₂)
        (fun a b => paneCmp_isLE_total a b) _).imp
      (fun h => (paneCmp_isLE_iff _ _).mp h)

unseal List.mergeSort List.merge in
/-- C6 counterexample: merging an empty batch empties the view, yet the
selection index stays at its stale value 3 — the code does not reset it to
0 when the visible count is 0, contrary to the claimed clamp. -/
theorem clamp_empty_view_counterexample :
    (staleSelectionApp.merge [] 0).1.visible_panes.length = 0 ∧
    (staleSelectionApp.merge [] 0).1.selected_index = 3 := by
  decide

/-- C6 (amended): after a merge the selection index is clamped to
`visibleCount - 1` only when the view is nonempty and the index is out of
range, and is left unchanged otherwise — in particular it is *not* reset
when the view becomes empty; the filter toggles reset it to 0
unconditionally. -/
theorem selection_clamp_spec (app : App) (panes : List Pane) (now : Nat) :
    ((app.merge panes now).1.selected_index =
      if 0 < (app.merge panes now).1.visible_panes.length ∧
          (app.merge panes now).1.visible_panes.length ≤ app.selected_index then
        (app.merge panes now).1.visible_panes.length - 1
      else
        app.selected_index) ∧
    app.toggle_show_all.selected_index = 0 ∧
    app.toggle_filter_working.selected_index = 0 ∧
    app.toggle_filter_waiting.selected_index = 0 := by
  refine ⟨?_, rfl, rfl, rfl⟩
  set app' : App := { app with pane_states :=
    (List.filter
      (fun s =>
        (panes.foldl (processPane app.self_pane_id now)
            (⟨app.pane_states, [], []⟩ : RefreshAcc)).seen_ids.contains
          s.pane.id)
      (panes.foldl (processPane app.self_pane_id now)
        (⟨app.pane_states, [], []⟩ : RefreshAcc)).pane_states) } with happ'
  have hfst : (app.merge panes now).1 =
      if 0 < app'.visible_panes.length ∧
          app'.visible_panes.length ≤ app'.selected_index then
        { app' with selected_index := app'.visible_panes.length - 1 }
      else app' := rfl
  have hsel : app'.selected_index = app.selected_index := rfl
  have hvis : ∀ k : Nat,
      App.visible_panes { app' with selected_index := k } =
        app'.visible_panes := fun _ => rfl
  rw [hfst]
  by_cases hc : 0 < app'.visible_panes.length ∧
      app'.visible_panes.length ≤ app'.selected_index
  · rw [if_pos hc, hvis, if_pos ⟨hc.1, hc.2⟩]
    exact rfl
  · rw [if_neg hc, if_neg]
    intro hcon
    exact hc ⟨hcon.1, hcon.2⟩

/-- C7: the efficiency percentage is exactly 0 when the summed working,
waiting and permission seconds are 0 (the division is never executed), and
otherwise equals 100 times the working share of that sum; in all cases it
is a well-defined rational between 0 and 100 — never a division by zero,
`NaN`, or an error. -/
theorem efficiency_percent_spec (s : AggregatedStats) :
    (s.total_working_secs + s.total_waiting_secs + s.total_permission_secs = 0 →
      s.efficiency_percent = 0) ∧
    (s.total_working_secs + s.total_waiting_secs + s.total_permission_secs ≠ 0 →
      s.efficiency_percent *
          ((s.total_working_secs + s.total_waiting_secs +
            s.total_permission_secs : Nat) : ℚ) =
        (s.total_working_secs : ℚ) * 100) ∧
    0 ≤ s.efficiency_percent ∧ s.efficiency_percent ≤ 100 := by
  unfold AggregatedStats.efficiency_percent
  set T : Nat := s.total_working_secs + s.total_waiting_secs + s.total_permission_secs
    with hT
  refine ⟨fun h0 => by rw [if_pos h0], fun hne => ?_, ?_, ?_⟩
  · rw [if_neg hne]
    have hTQ : ((T : Nat) : ℚ) ≠ 0 := by
      exact_mod_cast hne
    field_simp
  · by_cases h0 : T = 0
    · rw [if_pos h0]
    · rw [if_neg h0]
      have hTQ : (0 : ℚ) < ((T : Nat) : ℚ) := by
        have : 0 < T := Nat.pos_of_ne_zero h0
        exact_mod_cast this
      have hw : (0 : ℚ) ≤ (s.total_working_secs : ℚ) := by positivity
      positivity
  · by_cases h0 : T = 0
    · rw [if_pos h0]
      norm_num
    · rw [if_neg h0]
      have hTQ : (0 : ℚ) < ((T : Nat) : ℚ) := by
        have : 0 < T := Nat.pos_of_ne_zero h0
        exact_mod_cast this
      have hle : (s.total_working_secs : ℚ) ≤ ((T : Nat) : ℚ) := by
        have : s.total_working_secs ≤ T := by
          rw [hT]
          omega
        exact_mod_cast this
      have hdiv : (s.total_working_secs : ℚ) / ((T : Nat) : ℚ) ≤ 1 :=
        (div_le_one hTQ).mpr hle
      calc (s.total_working_secs : ℚ) / ((T : Nat) : ℚ) * 100
          ≤ 1 * 100 := by
            apply mul_le_mul_of_nonneg_right hdiv
            norm_num
        _ = 100 := by norm_num

/-- C8 counterexample: the cost resolver's `hash_path` leaves `_`, `.` and
space untouched — it only replaces `/` — while the claimed all-four
replacement (implemented by `encode_path` in src/providers/claude.rs)
gives a different directory name. -/
theorem resolver_encoding_counterexample :
    cost.hash_path "a_b.c d" = "a_b.c d" ∧
    claude.encode_path "a_b.c d" = "a-b-c-d" ∧
    cost.hash_path "a_b.c d" ≠ claude.encode_path "a_b.c d" := by
  refine ⟨rfl, rfl, ?_⟩
  decide

/-- C8 (amended): the cost resolver derives the log-subdirectory name by
replacing only `/` with `-` (leaving `_`, `.` and space unchanged; the
all-four replacement lives in the claude provider's `encode_path`), and an
unknown home directory or a non-existent derived directory yields the zero
usage with no error. -/
theorem resolver_encoding_spec (wd : String) (fs : FileSystem) :
    ((cost.hash_path wd).data =
      wd.data.map (fun c => if c = '/' then '-' else c)) ∧
    ((claude.encode_path wd).data =
      wd.data.map
        (fun c => if c = '/' ∨ c = '_' ∨ c = '.' ∨ c = ' ' then '-' else c)) ∧
    (fs.home_dir = none →
      cost.get_claude_usage fs wd = TokenUsage.default) ∧
    (∀ home, fs.home_dir = some home →
      fs.dir_exists (home ++ "/" ++ ".claude" ++ "/" ++ "projects" ++ "/" ++
        cost.hash_path wd) = false →
      cost.get_claude_usage fs wd = TokenUsage.default) := by
  refine ⟨rfl, rfl, ?_, ?_⟩
  · intro h
    unfold cost.get_claude_usage cost.find_session_files cost.claude_projects_dir
    rw [h]
    rfl
  · intro home hh hdir
    unfold cost.get_claude_usage cost.find_session_files cost.claude_projects_dir
    rw [hh]
    simp only [Option.map_some']
    rw [if_pos hdir]
    rfl

/-- Adding the zero usage on the right is the identity. -/
theorem TokenUsage.add_default (a : TokenUsage) :
    a.add TokenUsage.default = a := by
  cases a
  simp [TokenUsage.add, TokenUsage.default]

/-- Adding the zero usage on the left is the identity. -/
theorem TokenUsage.default_add (a : TokenUsage) :
    TokenUsage.default.add a = a := by
  cases a
  simp [TokenUsage.add, TokenUsage.default]

/-- Usage addition is associative. -/
theorem TokenUsage.add_assoc (a b c : TokenUsage) :
    (a.add b).add c = a.add (b.add c) := by
  cases a
  cases b
  cases c
  simp [TokenUsage.add, Nat.add_assoc]

/-- The imperative per-line accumulation of `parse_jsonl_tokens` adds
exactly the line's usage. -/
theorem addLineUsage_eq (parse : String → Option Json) (u : TokenUsage)
    (line : String) :
    cost.addLineUsage parse u line = u.add (line_usage parse line) := by
  unfold cost.addLineUsage line_usage
  by_cases hb : rustTrim line = ""
  · simp [hb, TokenUsage.add_default]
  · simp only [hb, if_false, if_neg hb]
    cases hp : parse line with
    | none => simp [hp, TokenUsage.add_default]
    | some json =>
        simp only [hp]
        cases hgu : json.get "usage" with
        | none => simp [hgu, TokenUsage.add_default]
        | some obj =>
            simp only [hgu]
            rcases h1 : (obj.get "input_tokens").bind Json.as_u64 with _ | v1 <;>
              rcases h2 : (obj.get "output_tokens").bind Json.as_u64 with _ | v2 <;>
                rcases h3 : (obj.get "cache_read_input_tokens").bind Json.as_u64
                    with _ | v3 <;>
                  rcases h4 : (obj.get "cache_creation_input_tokens").bind Json.as_u64
                      with _ | v4 <;>
                    simp [h1, h2, h3, h4, TokenUsage.add, usage_field]

/-- Folding the per-line accumulation over any line list yields the initial
value plus the sum of the per-line usages. -/
theorem foldl_addLineUsage (parse : String → Option Json)
    (lines : List String) (u : TokenUsage) :
    lines.foldl (cost.addLineUsage parse) u =
      u.add (usage_sum (lines.map (line_usage parse))) := by
  induction lines generalizing u with
  | nil => simp [usage_sum, TokenUsage.add_default]
  | cons l rest ih =>
      rw [List.foldl_cons, addLineUsage_eq, ih]
      simp only [List.map_cons]
      rw [show usage_sum (line_usage parse l :: rest.map (line_usage parse)) =
        (line_usage parse l).add (usage_sum (rest.map (line_usage parse))) from rfl]
      rw [TokenUsage.add_assoc]

/-- C9: the usage resolver is total and degrades to zero: an unreadable file
yields the zero usage, a readable file yields exactly the sum of the
usages of its lines — a line that is blank, fails JSON parsing, or lacks a
`usage` object contributes nothing, and missing fields count as zero — and
the whole per-directory resolution returns the zero usage when the selected
file cannot be read.  No failure is ever surfaced to the caller. -/
theorem usage_resolver_spec (fs : FileSystem) (path wd : String) :
    (fs.read_to_string path = none →
      cost.parse_jsonl_tokens fs path = TokenUsage.default) ∧
    (∀ content, fs.read_to_string path = some content →
      cost.parse_jsonl_tokens fs path =
        usage_sum ((rustLines content).map (line_usage fs.parse_json))) ∧
    (∀ f, cost.most_recent_file fs (cost.find_session_files fs wd) = some f →
      fs.read_to_string f = none →
      cost.get_claude_usage fs wd = TokenUsage.default) := by
  refine ⟨?_, ?_, ?_⟩
  · intro h
    unfold cost.parse_jsonl_tokens
    rw [h]
  · intro content h
    unfold cost.parse_jsonl_tokens
    simp only [h]
    rw [foldl_addLineUsage, TokenUsage.default_add]
  · intro f hf hread
    unfold cost.get_claude_usage
    simp only [hf]
    unfold cost.parse_jsonl_tokens
    simp only [hread]

/-- C10: when the pane source fails to produce a batch — the subprocess
cannot be spawned, or exits with an error other than a missing
server/client — the tick performs no update at all: the engine state is
returned untouched (every record with its status, timers and counters) and
the error is reported without any partial mutation. -/
theorem refresh_source_failure_keeps_state (app : App) (out : Option CmdOutput)
    (now : Nat) (e : String) (h : list_panes out = Except.error e) :
    app.refresh out now = (app, Except.error e) := by
  unfold App.refresh
  rw [h]

/-- C1 witness: one non-excluded observation batch, applied to the sample
engine. -/
theorem merge_live_ids_witness :
    (([samplePaneWaiting].map Pane.id).Nodup) ∧
    ((∃ s ∈ (sampleApp.merge [samplePaneWaiting] 15).1.pane_states,
        s.pane.id = "%1") ↔
      ((∃ p ∈ [samplePaneWaiting], p.id = "%1") ∧
        sampleApp.self_pane_id ≠ some "%1")) := by
  have h1 : ([samplePaneWaiting].map Pane.id).Nodup := by decide
  exact ⟨h1, merge_live_ids sampleApp [samplePaneWaiting] 15 h1 "%1"⟩

/-- C2 witness: the sample pane goes from Working (since tick 5) to waiting
at tick 15 — 10 seconds land in the working bucket, the state-change
counter becomes 1, and the timers reset. -/
theorem merge_accounting_witness :
    (([samplePaneWaiting].map Pane.id).Nodup ∧
      ([samplePaneWaiting].filter
          (fun q => !(some q.id = sampleApp.self_pane_id))).find?
        (fun q => q.id = "%1") = some samplePaneWaiting ∧
      sampleApp.pane_states.find? (fun s => s.pane.id = "%1") =
        some sampleWorkingState ∧
      (observedResult samplePaneWaiting).status ≠
        sampleWorkingState.status.status) ∧
    (sampleApp.merge [samplePaneWaiting] 15).1.pane_states.find?
        (fun s => s.pane.id = "%1") =
      some { pane := samplePaneWaiting,
             status := observedResult samplePaneWaiting,
             last_change := 15,
             status_changed_at := 15,
             previous_status := some Status.Working,
             stats := { total_working_secs := 10, total_waiting_secs := 0,
                        total_permission_secs := 0, state_changes := 1 },
             tokens := none } := by
  have h1 : ([samplePaneWaiting].map Pane.id).Nodup := by decide
  have h2 : ([samplePaneWaiting].filter
      (fun q => !(some q.id = sampleApp.self_pane_id))).find?
      (fun q => q.id = "%1") = some samplePaneWaiting := by decide
  have h3 : sampleApp.pane_states.find? (fun s => s.pane.id = "%1") =
      some sampleWorkingState := by decide
  have h4 : (observedResult samplePaneWaiting).status ≠
      sampleWorkingState.status.status := by decide
  have hmain := ((merge_accounting sampleApp [samplePaneWaiting] 15 "%1"
    samplePaneWaiting h1 h2).1 sampleWorkingState h3).1 h4
  refine ⟨⟨h1, h2, h3, h4⟩, ?_⟩
  rw [hmain]
  decide

/-- C3 witness: the Working → waiting observation produces exactly one
non-permission notification carrying the pane's display data. -/
theorem merge_transition_events_witness :
    (([samplePaneWaiting].map Pane.id).Nodup) ∧
    (sampleApp.merge [samplePaneWaiting] 15).2 =
      [{ pane_name := "dev:1.0", folder_name := "proj", session_name := "dev",
         window_index := 1, pane_index := 0, is_permission := false }] := by
  have h1 : ([samplePaneWaiting].map Pane.id).Nodup := by decide
  have h := merge_transition_events sampleApp [samplePaneWaiting] 15 h1
  refine ⟨h1, ?_⟩
  rw [h]
  rfl

/-- C4 witness: re-observing the sample pane with its unchanged Working
status refreshes only the display data; counters and timers stay. -/
theorem merge_same_status_refresh_witness :
    (([samplePaneWorking].map Pane.id).Nodup ∧
      sampleApp.pane_states.find? (fun s => s.pane.id = "%1") =
        some sampleWorkingState ∧
      ([samplePaneWorking].filter
          (fun q => !(some q.id = sampleApp.self_pane_id))).find?
        (fun q => q.id = "%1") = some samplePaneWorking ∧
      (observedResult samplePaneWorking).status =
        sampleWorkingState.status.status) ∧
    (sampleApp.merge [samplePaneWorking] 15).1.pane_states.find?
        (fun s => s.pane.id = "%1") =
      some { pane := samplePaneWorking,
             status := observedResult samplePaneWorking,
             last_change := 0,
             status_changed_at := 5,
             previous_status := none,
             stats := PaneStats.default,
             tokens := none } := by
  have h1 : ([samplePaneWorking].map Pane.id).Nodup := by decide
  have h2 : sampleApp.pane_states.find? (fun s => s.pane.id = "%1") =
      some sampleWorkingState := by decide
  have h3 : ([samplePaneWorking].filter
      (fun q => !(some q.id = sampleApp.self_pane_id))).find?
      (fun q => q.id = "%1") = some samplePaneWorking := by decide
  have h4 : (observedResult samplePaneWorking).status =
      sampleWorkingState.status.status := by decide
  have hmain := merge_same_status_refresh sampleApp [samplePaneWorking] 15 "%1"
    sampleWorkingState samplePaneWorking h1 h2 h3 h4
  refine ⟨⟨h1, h2, h3, h4⟩, ?_⟩
  rw [hmain]
  decide

/-- C7 witness: the all-zero aggregate has efficiency exactly 0, and a
30s-working / 10s-waiting aggregate satisfies the denominator-free
efficiency equation. -/
theorem efficiency_percent_witness :
    ((0 : Nat) + 0 + 0 = 0 ∧
      (AggregatedStats.mk 0 0 0 0 0).efficiency_percent = 0) ∧
    ((30 : Nat) + 10 + 0 ≠ 0 ∧
      (AggregatedStats.mk 1 30 10 0 2).efficiency_percent * ((30 + 10 + 0 : Nat) : ℚ) =
        ((30 : Nat) : ℚ) * 100) := by
  constructor
  · exact ⟨rfl, (efficiency_percent_spec (AggregatedStats.mk 0 0 0 0 0)).1 rfl⟩
  · have hne : (30 : Nat) + 10 + 0 ≠ 0 := by decide
    exact ⟨hne, (efficiency_percent_spec (AggregatedStats.mk 1 30 10 0 2)).2.1 hne⟩

/-- C8 witness: on a filesystem whose derived session directory does not
exist, the resolver returns the zero usage. -/
theorem resolver_encoding_witness :
    homeFs.home_dir = some "/root" ∧
    homeFs.dir_exists ("/root" ++ "/" ++ ".claude" ++ "/" ++ "projects" ++ "/" ++
      cost.hash_path "a_b") = false ∧
    cost.get_claude_usage homeFs "a_b" = TokenUsage.default := by
  refine ⟨rfl, rfl, ?_⟩
  exact (resolver_encoding_spec "a_b" homeFs).2.2.2 "/root" rfl rfl

/-- C9 witness: a file with one valid and one malformed line resolves to
exactly the valid line's usage, the malformed line silently skipped. -/
theorem usage_resolver_witness :
    jsonlFs.read_to_string "f" = some sampleContent ∧
    cost.parse_jsonl_tokens jsonlFs "f" =
      { input_tokens := 1000000, output_tokens := 100000,
        cache_read_tokens := 0, cache_write_tokens := 0 } := by
  refine ⟨rfl, ?_⟩
  rw [(usage_resolver_spec jsonlFs "f" "wd").2.1 sampleContent rfl]
  decide

/-- C10 witness: a spawn failure of the pane source leaves the sample
engine exactly as it was and surfaces the error. -/
theorem refresh_source_failure_witness :
    list_panes none = Except.error "Failed to execute tmux list-panes" ∧
    sampleApp.refresh none 0 =
      (sampleApp, Except.error "Failed to execute tmux list-panes") := by
  refine ⟨rfl, ?_⟩
  exact refresh_source_failure_keeps_state sampleApp none 0
    "Failed to execute tmux list-panes" rfl
